import Mathlib

/-!
Shallow embedding of the AI-powered chatbot repository
(`src/services/cache_service.py`, `src/services/search_service.py`,
`src/services/rag_service.py`, `src/models/rag_models.py`) together with
theorems settling the specification claims.

Python floats are modelled as rationals (`ℚ`), Python lists and dicts as
Lean lists (dicts as association lists in insertion order, matching Python
dict iteration order), and `time.time()` as an explicit time parameter.
String normalisation (`str.lower`, `str.strip`) is modelled on the
character lists underlying strings, so that it is executable by the kernel.
-/

namespace Chatbot


/-- `str.lower()` on the underlying character list. -/
def lowerChars (l : List Char) : List Char := l.map Char.toLower

/-- `str.strip()` on the underlying character list: drop leading and
trailing whitespace. -/
def stripChars (l : List Char) : List Char :=
  ((l.dropWhile Char.isWhitespace).reverse.dropWhile Char.isWhitespace).reverse

/-! ## Cache service (`src/services/cache_service.py`, class SimpleResponseCache)

The cache `self._cache : Dict[str, Tuple[str, float]]` maps an md5 key to a
pair of the cached response and the timestamp at which it was stored.  We
model the dict as an association list in insertion order.  The md5 digest is
determined by the hashed content, so (collisions abstracted away) a key is
modelled by the pre-hash content character list itself. -/

structure CacheEntry where
  key : List Char
  response : String
  timestamp : ℚ
deriving DecidableEq

/-- `_generate_key`: the key content is `f"{message.lower().strip()}_rag_{use_rag}"`
(Python renders the boolean as `True`/`False`); the md5 digest of that content
is modelled by the content itself. -/
def generateKey (message : String) (use_rag : Bool) : List Char :=
  stripChars (lowerChars message.data) ++ "_rag_".data ++
    (if use_rag then "True".data else "False".data)

/-- `key in self._cache` plus `self._cache[key]`: first entry with the key. -/
def findEntry (key : List Char) : List CacheEntry → Option CacheEntry
  | [] => none
  | e :: rest => if e.key = key then some e else findEntry key rest

/-- `del self._cache[key]`. -/
def eraseKey (key : List Char) (c : List CacheEntry) : List CacheEntry :=
  c.filter (fun e => e.key != key)

/-- `self._cache[key] = (response, time.time())`: Python dict assignment
updates an existing key in place (keeping its position) and appends a new
key at the end. -/
def insertEntry (key : List Char) (response : String) (now : ℚ)
    (c : List CacheEntry) : List CacheEntry :=
  if (findEntry key c).isSome then
    c.map (fun e => if e.key = key then ⟨key, response, now⟩ else e)
  else c ++ [⟨key, response, now⟩]

/-- `SimpleResponseCache.get`: returns the cached response if present and not
expired; deletes the entry and returns `None` if it is older than
`ttl_seconds`.  Returns the value together with the post-state. -/
def cacheGet (ttl : ℚ) (c : List CacheEntry) (message : String) (use_rag : Bool)
    (now : ℚ) : Option String × List CacheEntry :=
  match findEntry (generateKey message use_rag) c with
  | none => (none, c)
  | some e =>
    if now - e.timestamp > ttl then (none, eraseKey (generateKey message use_rag) c)
    else (some e.response, c)

/-- The earlier of a candidate entry and an optional better entry found later
in the dict: a strictly smaller timestamp wins, ties keep the earlier entry,
matching Python `min`, which returns the first occurrence of the minimum. -/
def olderOf (a : CacheEntry) : Option CacheEntry → CacheEntry
  | none => a
  | some e => if e.timestamp < a.timestamp then e else a

/-- `min(self._cache.keys(), key=lambda k: self._cache[k][1])`: the first
entry (in insertion order) with the smallest timestamp; `none` on an empty
dict, where Python `min` raises `ValueError`. -/
def oldestEntry : List CacheEntry → Option CacheEntry
  | [] => none
  | e :: rest => some (olderOf e (oldestEntry rest))

/-- `SimpleResponseCache.set`: when the cache is full, evict the entry with
the smallest timestamp, then insert.  On an empty full cache (only possible
with `max_size = 0`) Python `min` raises and the cache is left unchanged. -/
def cacheSet (max_size : ℕ) (c : List CacheEntry) (message response : String)
    (use_rag : Bool) (now : ℚ) : List CacheEntry :=
  if max_size ≤ c.length then
    match oldestEntry c with
    | none => c
    | some e => insertEntry (generateKey message use_rag) response now (eraseKey e.key c)
  else insertEntry (generateKey message use_rag) response now c

/-- A client-visible operation on the cache (`get`, `set`, `clear`), with the
wall-clock time at which it runs. -/
inductive CacheOp where
  | get (message : String) (use_rag : Bool) (now : ℚ)
  | set (message response : String) (use_rag : Bool) (now : ℚ)
  | clear

/-- State transition of one cache operation. -/
def runOp (max_size : ℕ) (ttl : ℚ) (c : List CacheEntry) : CacheOp → List CacheEntry
  | .get m r now => (cacheGet ttl c m r now).2
  | .set m resp r now => cacheSet max_size c m resp r now
  | .clear => []

/-- State after a sequence of cache operations. -/
def runOps (max_size : ℕ) (ttl : ℚ) (c : List CacheEntry) : List CacheOp → List CacheEntry
  | [] => c
  | op :: ops => runOps max_size ttl (runOp max_size ttl c op) ops

/-! ## Search service (`src/services/search_service.py`,
class AzureCognitiveSearchService, method `semantic_search`) and the models
of `src/models/rag_models.py` it returns.

The call to Azure Cognitive Search and the embedding API are external; they
are modelled as `Except`-valued inputs, so that any raised exception is an
`error` value.  The `try`/`except` wrapping the whole method body maps every
error to the empty result list. -/

/-- `DocumentType` enum of `rag_models.py`. -/
inductive DocumentType where
  | career_guide
  | technical_skill
  | interview_prep
  | industry_insight
  | learning_path
  | salary_data
  | company_info
deriving DecidableEq

/-- `DocumentType(value)`: Python raises `ValueError` on an unknown value,
modelled by `none`. -/
def docTypeOfString (s : String) : Option DocumentType :=
  if s = "career_guide" then some .career_guide
  else if s = "technical_skill" then some .technical_skill
  else if s = "interview_prep" then some .interview_prep
  else if s = "industry_insight" then some .industry_insight
  else if s = "learning_path" then some .learning_path
  else if s = "salary_data" then some .salary_data
  else if s = "company_info" then some .company_info
  else none

/-- `SearchQuery` of `rag_models.py` (pydantic validates
`1 ≤ max_results ≤ 20` and `0 ≤ similarity_threshold ≤ 1`; those bounds
appear as hypotheses where needed).  `document_types`/`tags` filters are
applied server-side and do not affect the claims. -/
structure SearchQuery where
  query : String
  conversation_context : String
  max_results : ℕ
  similarity_threshold : ℚ

/-- `SearchResult` of `rag_models.py` (the `metadata` dict is omitted: its
JSON parsing swallows its own errors and no claim concerns it). -/
structure SearchResult where
  document_id : String
  title : String
  content_snippet : String
  summary : String
  document_type : DocumentType
  similarity_score : ℚ
  tags : List String
  highlighted_snippets : List String
deriving DecidableEq

/-- One raw item of the Azure search response, with the fields
`semantic_search` reads.  `reranker_score` and `search_score` carry
`getattr(result, "@search.reranker_score"/"@search.score", 0.0) or 0.0`
after the `None`-coalescing. -/
structure RawSearchResult where
  reranker_score : ℚ
  search_score : ℚ
  id : String
  title : String
  content : String
  summary : String
  document_type : String
  tags : List String
  captions : List String
deriving DecidableEq

/-- `similarity_score = max(semantic_score / 4.0, vector_score)`. -/
def rawScore (r : RawSearchResult) : ℚ :=
  max (r.reranker_score / 4) r.search_score

/-- One iteration of the result loop of `semantic_search`: skip the result
if its score is below the threshold (`continue`), otherwise build the
`SearchResult`; constructing `DocumentType(result["document_type"])` raises
on an unknown value. -/
def processResult (threshold : ℚ) (r : RawSearchResult) :
    Except String (Option SearchResult) :=
  if rawScore r < threshold then .ok none
  else
    match docTypeOfString r.document_type with
    | none => .error "ValueError: invalid DocumentType"
    | some dt => .ok (some
        { document_id := r.id
          title := r.title
          content_snippet :=
            if 500 < r.content.length then r.content.take 500 ++ "..." else r.content
          summary := r.summary
          document_type := dt
          similarity_score := min (rawScore r) 1
          tags := r.tags
          highlighted_snippets := r.captions })

/-- Combine the outcome of one loop iteration with the outcome of the rest
of the loop: an exception in the current iteration aborts everything, a
skipped result (`continue`) contributes nothing, a kept result is consed on
(the loop appends in order). -/
def stepResults : Except String (Option SearchResult) →
    Except String (List SearchResult) → Except String (List SearchResult)
  | .error msg, _ => .error msg
  | .ok none, rest => rest
  | .ok (some _), .error msg => .error msg
  | .ok (some s), .ok rs => .ok (s :: rs)

/-- The result loop of `semantic_search` over the raw Azure results, in
order; an exception in any iteration aborts the whole loop. -/
def processResults (threshold : ℚ) : List RawSearchResult →
    Except String (List SearchResult)
  | [] => .ok []
  | r :: rest => stepResults (processResult threshold r) (processResults threshold rest)

/-- `search_results.sort(key=lambda x: x.similarity_score, reverse=True)`. -/
def simDescend (a b : SearchResult) : Bool :=
  b.similarity_score ≤ a.similarity_score

/-- `AzureCognitiveSearchService.semantic_search`: generate the query
embedding, call the search index, process the results, sort them by
descending similarity; the surrounding `try`/`except` returns `[]` on any
exception.  `embed` models `generate_embedding` and `search` models the
`search_client.search` call (whose `top=query.max_results` caps the number
of raw results server-side). -/
def semanticSearch (q : SearchQuery) (embed : Except String (List ℚ))
    (search : List ℚ → Except String (List RawSearchResult)) : List SearchResult :=
  match embed with
  | .error _ => []
  | .ok v =>
    match search v with
    | .error _ => []
    | .ok raw =>
      match processResults q.similarity_threshold raw with
      | .error _ => []
      | .ok rs => rs.mergeSort simDescend

/-- A concrete query with the RAG service's configuration (threshold `0.7`,
up to 5 results), for witnesses. -/
def sampleQuery : SearchQuery :=
  { query := "q"
    conversation_context := ""
    max_results := 5
    similarity_threshold := 7/10 }

/-- The same query with threshold `0`, for witnesses. -/
def zeroQuery : SearchQuery :=
  { query := "q"
    conversation_context := ""
    max_results := 5
    similarity_threshold := 0 }

/-- A concrete raw Azure result (reranker score `3.2`, vector score `0.5`)
of a valid document type, for witnesses. -/
def sampleRaw : RawSearchResult :=
  { reranker_score := 32/10
    search_score := 1/2
    id := "d"
    title := "t"
    content := "c"
    summary := "s"
    document_type := "career_guide"
    tags := []
    captions := [] }

/-- A concrete raw Azure result whose `document_type` is not a
`DocumentType` value, for witnesses. -/
def bogusRaw : RawSearchResult :=
  { reranker_score := 4
    search_score := 1
    id := "d"
    title := "t"
    content := "c"
    summary := "s"
    document_type := "bogus"
    tags := []
    captions := [] }

/-! ## RAG service (`src/services/rag_service.py`, class RAGEnhancedAIService)
and the conversation-context update of `src/services/ai_service.py`.

The hosted LLM call and the search service are abstracted as function
parameters (`llm`, `oracle`); wall-clock timing fields and token usage of
`RAGResponse` are omitted (they carry `time.time()` measurements and API
metadata).  The outcome record is instrumented with whether the search
service was called and with the query issued to it. -/

/-- `ChatMessage` of `chat_models.py`, restricted to the fields the services
read (`id` and `timestamp` are generated metadata no claim concerns). -/
structure ChatMessage where
  content : String
  role : String
deriving DecidableEq

/-- `ChatRequest` of `chat_models.py`, restricted to the fields
`generate_rag_response` branches on (`temperature`/`max_tokens` only feed
the abstracted LLM call). -/
structure ChatRequest where
  message : String
  conversation_id : Option String
deriving DecidableEq

/-- `RAGResponse` of `rag_models.py` (timing and token-usage fields
omitted). -/
structure RAGResponse where
  message : String
  conversation_id : Option String
  retrieved_sources : List SearchResult
  retrieval_query : Option String
  confidence_score : Option ℚ
  knowledge_enhanced : Bool

/-- One `{"role": ..., "content": ...}` message sent to the chat-completions
API. -/
structure LLMMessage where
  role : String
  content : String

/-- `self.max_history_messages = 20`. -/
def maxHistoryMessages : ℕ := 20

/-- `self.max_retrieved_docs = 5`. -/
def maxRetrievedDocs : ℕ := 5

/-- `self.min_retrieval_score = 0.7`. -/
def minRetrievalScore : ℚ := 0.7

/-- The `career_keywords` list of `_should_use_rag`, in source order. -/
def careerKeywords : List String :=
  ["career", "job", "skill", "interview", "salary", "learning", "transition",
   "ai engineer", "machine learning", "data science", "resume", "portfolio",
   "experience", "qualification", "certification", "bootcamp", "degree",
   "course", "training", "mentor", "advice"]

/-- Python `pat in s` substring containment on character lists. -/
def containsChars (pat : List Char) : List Char → Bool
  | [] => pat.isEmpty
  | c :: rest => pat.isPrefixOf (c :: rest) || containsChars pat rest

/-- `_should_use_rag`: does any career keyword occur in the lower-cased
query?  (`conversation_context` is accepted but unused by the source.) -/
def shouldUseRag (query : String) : Bool :=
  careerKeywords.any (fun keyword => containsChars keyword.data (lowerChars query.data))

/-- Python `l[-n:]`: the last `n` elements — except that `l[-0:]` is the
whole list. -/
def pythonTail (n : ℕ) (l : List α) : List α :=
  if n = 0 then l else l.drop (l.length - n)

/-- The base system prompt of `_build_rag_prompt` (text condensed to a
single escaped literal; apostrophes in the prose are expanded). -/
def ragSystemPrompt : String :=
  "You are an expert AI Career Mentor with access to comprehensive career guidance knowledge. \nYour role is to provide personalized, actionable advice for professionals transitioning to or advancing in AI engineering roles.\n\nGuidelines:\n- Use the provided knowledge sources to enhance your responses\n- Always cite sources when using specific information\n- Provide practical, actionable advice\n- Be encouraging but realistic about career challenges\n- Tailor advice to the user background and goals\n- If knowledge sources do not contain relevant information, rely on your general expertise"

/-- The `.value` string of a `DocumentType`. -/
def docTypeValue : DocumentType → String
  | .career_guide => "career_guide"
  | .technical_skill => "technical_skill"
  | .interview_prep => "interview_prep"
  | .industry_insight => "industry_insight"
  | .learning_path => "learning_path"
  | .salary_data => "salary_data"
  | .company_info => "company_info"

/-- `f"{source.similarity_score:.2f}"`: the two-decimal rendering of the
score (the decimal formatting itself is abstracted as the canonical
rational rendering; no claim depends on the digits). -/
def formatScore (q : ℚ) : String := toString q

/-- One numbered `[Source i]` block of the knowledge context in
`_build_rag_prompt`. -/
def sourceBlock (i : ℕ) (s : SearchResult) : String :=
  "\n[Source " ++ toString i ++ "] " ++ s.title ++ "\n" ++
  "Type: " ++ docTypeValue s.document_type ++ "\n" ++
  "Summary: " ++ s.summary ++ "\n" ++
  "Content: " ++ s.content_snippet ++ "\n" ++
  (if s.tags.isEmpty then "" else "Tags: " ++ String.intercalate ", " s.tags ++ "\n") ++
  "Relevance Score: " ++ formatScore s.similarity_score ++ "\n"

/-- The numbered source blocks of `_build_rag_prompt`
(`for i, source in enumerate(retrieved_sources, 1)`). -/
def ragPromptSourceBlocks (sources : List SearchResult) : List String :=
  (List.enumFrom 1 sources).map (fun p => sourceBlock p.1 p.2)

/-- The knowledge-context part of `_build_rag_prompt`. -/
def knowledgeContextFor (sources : List SearchResult) : String :=
  if sources.isEmpty then ""
  else "\n\nRELEVANT KNOWLEDGE SOURCES:\n" ++ String.join (ragPromptSourceBlocks sources)

/-- `conversation_history[-6:]`: the messages quoted in the conversation
context of `_build_rag_prompt`. -/
def contextMessagesFor (history : List ChatMessage) : List ChatMessage :=
  pythonTail 6 history

/-- The conversation-context part of `_build_rag_prompt`
(`msg.role.title()` is `String.capitalize` on the single-word roles). -/
def contextPromptFor (history : List ChatMessage) : String :=
  if history.isEmpty then ""
  else "\n\nCONVERSATION CONTEXT:\n" ++
    String.join ((contextMessagesFor history).map
      (fun m => m.role.capitalize ++ ": " ++ m.content ++ "\n"))

/-- `_build_rag_prompt`. -/
def buildRagPrompt (original_query : String) (retrieved_sources : List SearchResult)
    (conversation_history : List ChatMessage) : String :=
  ragSystemPrompt ++ knowledgeContextFor retrieved_sources ++
    contextPromptFor conversation_history ++
    "\n\nUSER QUERY: " ++ original_query ++
    "\n\nPlease provide a comprehensive response using the knowledge sources where relevant, and cite them appropriately."

/-- The fallback system prompt of the non-RAG branch (whitespace of the
Python triple-quoted literal condensed). -/
def standardSystemPrompt : String :=
  "You are an expert AI Career Mentor specializing in helping professionals \ntransition to and advance in AI engineering roles. Provide practical, actionable advice \ntailored to each person background and goals."

/-- `self.conversation_history[conversation_id]` lookup in the in-memory
conversation store (an insertion-ordered association list). -/
def lookupHistory : List (String × List ChatMessage) → String → Option (List ChatMessage)
  | [], _ => none
  | (k, v) :: rest, cid => if k = cid then some v else lookupHistory rest cid

/-- `self.conversation_history[conversation_id] = h`: Python dict assignment
updates in place or appends. -/
def setHistory (st : List (String × List ChatMessage)) (cid : String)
    (h : List ChatMessage) : List (String × List ChatMessage) :=
  if (lookupHistory st cid).isSome then
    st.map (fun e => if e.1 = cid then (cid, h) else e)
  else st ++ [(cid, h)]

/-- Append the user and assistant messages to a conversation history and
trim to the last `maxH` messages when it exceeds `maxH`
(`history[-maxH:]`). -/
def updateHistory (maxH : ℕ) (history : List ChatMessage)
    (userMsg assistantMsg : ChatMessage) : List ChatMessage :=
  if maxH < (history ++ [userMsg, assistantMsg]).length then
    pythonTail maxH (history ++ [userMsg, assistantMsg])
  else history ++ [userMsg, assistantMsg]

/-- `avg_similarity = sum(s.similarity_score for s in retrieved_sources) /
len(retrieved_sources)`. -/
def avgSimilarity (sources : List SearchResult) : ℚ :=
  (sources.map (fun s => s.similarity_score)).sum / sources.length

/-- The outcome of `generate_rag_response`: the `RAGResponse`, the new
conversation store, and instrumentation recording whether and with which
query the search service was called. -/
structure RAGOutcome where
  response : RAGResponse
  state : List (String × List ChatMessage)
  searchCalled : Bool
  issuedQuery : Option SearchQuery

/-- `RAGEnhancedAIService.generate_rag_response` as a pure function of the
conversation store, the request, the search service (`oracle`) and the
chat-completions API (`llm`). -/
def generateRagResponse (st : List (String × List ChatMessage)) (req : ChatRequest)
    (oracle : SearchQuery → List SearchResult) (llm : List LLMMessage → String) :
    RAGOutcome :=
  let conversation_history :=
    match req.conversation_id with
    | none => []
    | some cid => (lookupHistory st cid).getD []
  let use_rag := shouldUseRag req.message
  let issuedQuery :=
    if use_rag then
      some { query := req.message
             conversation_context :=
               String.intercalate " "
                 ((pythonTail 4 conversation_history).map (fun m => m.content))
             max_results := maxRetrievedDocs
             similarity_threshold := minRetrievalScore }
    else (none : Option SearchQuery)
  let retrieved_sources := match issuedQuery with
    | none => []
    | some q => oracle q
  let messages :=
    if retrieved_sources.isEmpty then
      ({ role := "system", content := standardSystemPrompt } : LLMMessage) ::
        ((pythonTail 10 conversation_history).map
          (fun m => ({ role := m.role, content := m.content } : LLMMessage)) ++
         [{ role := "user", content := req.message }])
    else
      [{ role := "system",
         content := buildRagPrompt req.message retrieved_sources conversation_history }]
  let response_message := llm messages
  let confidence_score :=
    if retrieved_sources.isEmpty then none
    else some (min 0.95 (0.7 + avgSimilarity retrieved_sources * 0.25))
  let newState :=
    match req.conversation_id with
    | none => st
    | some cid =>
      setHistory st cid (updateHistory maxHistoryMessages ((lookupHistory st cid).getD [])
        { content := req.message, role := "user" }
        { content := response_message, role := "assistant" })
  { response :=
      { message := response_message
        conversation_id := req.conversation_id
        retrieved_sources := retrieved_sources
        retrieval_query := if retrieved_sources.isEmpty then none else some req.message
        confidence_score := confidence_score
        knowledge_enhanced := !retrieved_sources.isEmpty }
    state := newState
    searchCalled := use_rag
    issuedQuery := issuedQuery }

/-- `AzureOpenAIService._update_conversation_context`: append the user and
AI messages to `self._conversation_contexts[conversation_id]` and trim to
the configured `settings.max_conversation_history`. -/
def updateConversationContext (max_history : ℕ)
    (contexts : List (String × List ChatMessage)) (conversation_id : String)
    (user_message ai_response : String) : List (String × List ChatMessage) :=
  setHistory contexts conversation_id
    (updateHistory max_history ((lookupHistory contexts conversation_id).getD [])
      { content := user_message, role := "user" }
      { content := ai_response, role := "assistant" })

/-- A concrete retrieved source with similarity `0.8`, for witnesses. -/
def sampleSource : SearchResult :=
  { document_id := "d"
    title := "t"
    content_snippet := "c"
    summary := "s"
    document_type := .career_guide
    similarity_score := 4/5
    tags := []
    highlighted_snippets := [] }

/-- The query `generate_rag_response` issues for the message `"career"` with
no conversation context, for witnesses. -/
def careerIssuedQuery : SearchQuery :=
  { query := "career"
    conversation_context := ""
    max_results := 5
    similarity_threshold := 0.7 }

/-! ## Theorems settling the claims, with their supporting lemmas and witnesses -/

lemma length_eraseKey_le (key : List Char) (c : List CacheEntry) :
    (eraseKey key c).length ≤ c.length :=
  List.length_filter_le _ c

lemma length_eraseKey_lt {e : CacheEntry} {c : List CacheEntry} (he : e ∈ c) :
    (eraseKey e.key c).length < c.length := by
  apply List.length_filter_lt_length_iff_exists.mpr
  exact ⟨e, he, by simp⟩

lemma length_insertEntry_le (key : List Char) (response : String) (now : ℚ)
    (c : List CacheEntry) :
    (insertEntry key response now c).length ≤ c.length + 1 := by
  unfold insertEntry
  split
  · simp
  · simp

lemma oldestEntry_mem : ∀ {c : List CacheEntry} {e : CacheEntry},
    oldestEntry c = some e → e ∈ c := by
  intro c
  induction c with
  | nil => intro e h; simp [oldestEntry] at h
  | cons a rest ih =>
    intro e h
    simp only [oldestEntry, Option.some.injEq] at h
    cases hrest : oldestEntry rest with
    | none => rw [hrest] at h; simp [olderOf] at h; simp [h]
    | some e' =>
      rw [hrest] at h
      simp only [olderOf] at h
      by_cases hlt : e'.timestamp < a.timestamp
      · rw [if_pos hlt] at h
        subst h
        exact List.mem_cons_of_mem _ (ih hrest)
      · rw [if_neg hlt] at h
        simp [← h]

lemma oldestEntry_minimal : ∀ {c : List CacheEntry} {e : CacheEntry},
    oldestEntry c = some e → ∀ e' ∈ c, e.timestamp ≤ e'.timestamp := by
  intro c
  induction c with
  | nil => intro e h; simp [oldestEntry] at h
  | cons a rest ih =>
    intro e h e' he'
    simp only [oldestEntry, Option.some.injEq] at h
    cases hrest : oldestEntry rest with
    | none =>
      rw [hrest] at h
      simp only [olderOf] at h
      have hnil : rest = [] := by
        cases rest with
        | nil => rfl
        | cons b bs => simp [oldestEntry] at hrest
      subst hnil
      simp at he'
      subst he'
      rw [← h]
    | some emin =>
      rw [hrest] at h
      simp only [olderOf] at h
      rcases List.mem_cons.mp he' with rfl | hmem
      · by_cases hlt : emin.timestamp < e'.timestamp
        · rw [if_pos hlt] at h; subst h; exact le_of_lt hlt
        · rw [if_neg hlt] at h; subst h; exact le_refl _
      · by_cases hlt : emin.timestamp < a.timestamp
        · rw [if_pos hlt] at h; subst h
          exact ih hrest e' hmem
        · rw [if_neg hlt] at h; subst h
          exact le_trans (not_lt.mp hlt) (ih hrest e' hmem)

lemma oldestEntry_eq_none : ∀ {c : List CacheEntry}, oldestEntry c = none → c = [] := by
  intro c h
  cases c with
  | nil => rfl
  | cons a rest => simp [oldestEntry] at h

lemma length_cacheSet_le {max_size : ℕ} {c : List CacheEntry}
    (hc : c.length ≤ max_size) (message response : String) (use_rag : Bool) (now : ℚ) :
    (cacheSet max_size c message response use_rag now).length ≤ max_size := by
  unfold cacheSet
  by_cases hfull : max_size ≤ c.length
  · rw [if_pos hfull]
    cases hold : oldestEntry c with
    | none => exact hc
    | some e =>
      calc (insertEntry (generateKey message use_rag) response now (eraseKey e.key c)).length
          ≤ (eraseKey e.key c).length + 1 := length_insertEntry_le _ _ _ _
        _ ≤ c.length := length_eraseKey_lt (oldestEntry_mem hold)
        _ ≤ max_size := hc
  · rw [if_neg hfull]
    calc (insertEntry (generateKey message use_rag) response now c).length
        ≤ c.length + 1 := length_insertEntry_le _ _ _ _
      _ ≤ max_size := Nat.succ_le_of_lt (not_le.mp hfull)

lemma length_cacheGet_le (ttl : ℚ) (c : List CacheEntry) (m : String) (r : Bool) (now : ℚ) :
    (cacheGet ttl c m r now).2.length ≤ c.length := by
  unfold cacheGet
  cases hfind : findEntry (generateKey m r) c with
  | none => simp
  | some e =>
    simp only
    split
    · exact length_eraseKey_le _ _
    · simp

lemma length_runOp_le {max_size : ℕ} {ttl : ℚ} {c : List CacheEntry}
    (hc : c.length ≤ max_size) (op : CacheOp) :
    (runOp max_size ttl c op).length ≤ max_size := by
  cases op with
  | get m r now => exact le_trans (length_cacheGet_le ttl c m r now) hc
  | set m resp r now => exact length_cacheSet_le hc m resp r now
  | clear => simp [runOp]

lemma length_runOps_le {max_size : ℕ} {ttl : ℚ} {c : List CacheEntry}
    (hc : c.length ≤ max_size) (ops : List CacheOp) :
    (runOps max_size ttl c ops).length ≤ max_size := by
  induction ops generalizing c with
  | nil => exact hc
  | cons op ops ih => exact ih (length_runOp_le hc op)

/-- Claim C6: when the cache already holds at least `max_size` entries
(with a positive `max_size`, as configured), `set` first removes exactly the
entry with the minimal stored timestamp and then inserts the new entry; and
for every sequence of get/set/clear operations starting from the empty
cache, the number of cached entries never exceeds `max_size`. -/
theorem cacheSet_evicts_oldest_and_size_bounded :
    (∀ (max_size : ℕ) (c : List CacheEntry) (message response : String)
        (use_rag : Bool) (now : ℚ),
      max_size ≤ c.length → 1 ≤ max_size →
      ∃ e, oldestEntry c = some e ∧ e ∈ c ∧
        (∀ e' ∈ c, e.timestamp ≤ e'.timestamp) ∧
        cacheSet max_size c message response use_rag now =
          insertEntry (generateKey message use_rag) response now (eraseKey e.key c))
    ∧ (∀ (max_size : ℕ) (ttl : ℚ) (ops : List CacheOp),
        (runOps max_size ttl [] ops).length ≤ max_size) := by
  constructor
  · intro max_size c message response use_rag now hfull hpos
    cases hold : oldestEntry c with
    | none =>
      exfalso
      have : c = [] := oldestEntry_eq_none hold
      subst this
      simp at hfull
      omega
    | some e =>
      refine ⟨e, rfl, oldestEntry_mem hold, oldestEntry_minimal hold, ?_⟩
      unfold cacheSet
      rw [if_pos hfull, hold]
  · intro max_size ttl ops
    exact length_runOps_le (by simp) ops

/-- Witness for C6 at a concrete full cache of capacity 1. -/
theorem cacheSet_evicts_oldest_and_size_bounded_witness :
    1 ≤ ([⟨"k".data, "v", 0⟩] : List CacheEntry).length ∧ (1 : ℕ) ≤ 1 ∧
    (∃ e, oldestEntry [⟨"k".data, "v", 0⟩] = some e ∧
      e ∈ [(⟨"k".data, "v", 0⟩ : CacheEntry)] ∧
      (∀ e' ∈ [(⟨"k".data, "v", 0⟩ : CacheEntry)], e.timestamp ≤ e'.timestamp) ∧
      cacheSet 1 [⟨"k".data, "v", 0⟩] "m" "resp" false 5 =
        insertEntry (generateKey "m" false) "resp" 5 (eraseKey e.key [⟨"k".data, "v", 0⟩])) :=
  ⟨by decide, by decide,
    cacheSet_evicts_oldest_and_size_bounded.1 1 [⟨"k".data, "v", 0⟩] "m" "resp" false 5
      (by decide) (by decide)⟩

/-- Claim C7: `get` returns the cached response exactly when an entry for the
derived key exists and its age is at most `ttl_seconds`; an expired entry is
deleted and `None` returned; a missing key returns `None` and leaves the
cache unchanged. -/
theorem cacheGet_ttl_behaviour :
    ∀ (ttl : ℚ) (c : List CacheEntry) (m : String) (r : Bool) (now : ℚ),
      (∀ e, findEntry (generateKey m r) c = some e → now - e.timestamp ≤ ttl →
        cacheGet ttl c m r now = (some e.response, c))
      ∧ (∀ e, findEntry (generateKey m r) c = some e → ttl < now - e.timestamp →
        cacheGet ttl c m r now = (none, eraseKey (generateKey m r) c))
      ∧ (findEntry (generateKey m r) c = none → cacheGet ttl c m r now = (none, c)) := by
  intro ttl c m r now
  refine ⟨?_, ?_, ?_⟩
  · intro e hfind hfresh
    unfold cacheGet
    rw [hfind]
    simp only
    rw [if_neg (not_lt.mpr hfresh)]
  · intro e hfind hexp
    unfold cacheGet
    rw [hfind]
    simp only
    rw [if_pos hexp]
  · intro hfind
    unfold cacheGet
    rw [hfind]

/-- Witness for C7 at a concrete one-entry cache: a fresh hit, an expired
hit, and a miss. -/
theorem cacheGet_ttl_behaviour_witness :
    (findEntry (generateKey "m" false) [⟨generateKey "m" false, "v", 0⟩] =
        some ⟨generateKey "m" false, "v", 0⟩ ∧
      (3 : ℚ) - 0 ≤ 10 ∧
      cacheGet 10 [⟨generateKey "m" false, "v", 0⟩] "m" false 3 =
        (some "v", [⟨generateKey "m" false, "v", 0⟩]))
    ∧ ((10 : ℚ) < 20 - 0 ∧
      cacheGet 10 [⟨generateKey "m" false, "v", 0⟩] "m" false 20 =
        (none, eraseKey (generateKey "m" false) [⟨generateKey "m" false, "v", 0⟩]))
    ∧ (findEntry (generateKey "other" false) [⟨generateKey "m" false, "v", 0⟩] = none ∧
      cacheGet 10 [⟨generateKey "m" false, "v", 0⟩] "other" false 3 =
        (none, [⟨generateKey "m" false, "v", 0⟩])) :=
  ⟨⟨by decide, by norm_num,
      (cacheGet_ttl_behaviour 10 [⟨generateKey "m" false, "v", 0⟩] "m" false 3).1
        ⟨generateKey "m" false, "v", 0⟩ (by decide) (by norm_num)⟩,
    ⟨by norm_num,
      (cacheGet_ttl_behaviour 10 [⟨generateKey "m" false, "v", 0⟩] "m" false 20).2.1
        ⟨generateKey "m" false, "v", 0⟩ (by decide) (by norm_num)⟩,
    ⟨by decide,
      (cacheGet_ttl_behaviour 10 [⟨generateKey "m" false, "v", 0⟩] "other" false 3).2.2
        (by decide)⟩⟩

lemma findEntry_map_update {k : List Char} (v : String) (ts : ℚ) :
    ∀ {c : List CacheEntry}, (findEntry k c).isSome →
      findEntry k (c.map (fun e => if e.key = k then ⟨k, v, ts⟩ else e)) =
        some ⟨k, v, ts⟩ := by
  intro c
  induction c with
  | nil => intro h; simp [findEntry] at h
  | cons a rest ih =>
    intro h
    by_cases hk : a.key = k
    · simp only [List.map_cons, if_pos hk]
      unfold findEntry
      rw [if_pos rfl]
    · simp only [List.map_cons, if_neg hk]
      unfold findEntry
      rw [if_neg hk]
      apply ih
      unfold findEntry at h
      rw [if_neg hk] at h
      exact h

lemma findEntry_append_of_none {k : List Char} {c : List CacheEntry} (l : List CacheEntry)
    (h : findEntry k c = none) : findEntry k (c ++ l) = findEntry k l := by
  induction c with
  | nil => simp
  | cons a rest ih =>
    simp only [findEntry] at h
    rw [List.cons_append]
    simp only [findEntry]
    by_cases hk : a.key = k
    · rw [if_pos hk] at h; simp at h
    · rw [if_neg hk] at h ⊢
      exact ih h

lemma findEntry_insertEntry_self (k : List Char) (v : String) (ts : ℚ)
    (c : List CacheEntry) :
    findEntry k (insertEntry k v ts c) = some ⟨k, v, ts⟩ := by
  unfold insertEntry
  by_cases h : (findEntry k c).isSome
  · rw [if_pos h]
    exact findEntry_map_update v ts h
  · rw [if_neg h]
    rw [findEntry_append_of_none _ (Option.not_isSome_iff_eq_none.mp h)]
    unfold findEntry
    rw [if_pos rfl]

/-- Claim C10: two messages with the same lower-cased, stripped text (and the
same `use_rag` flag) share the cache key, hence `get` behaves identically on
them and a `set` on one is observed by a `get` on the other (for a positive
`max_size`, within the TTL). -/
theorem cacheKey_normalizes_case_and_whitespace :
    ∀ (m1 m2 : String) (r : Bool),
      stripChars (lowerChars m1.data) = stripChars (lowerChars m2.data) →
      generateKey m1 r = generateKey m2 r
      ∧ (∀ (ttl : ℚ) (c : List CacheEntry) (now : ℚ),
          cacheGet ttl c m1 r now = cacheGet ttl c m2 r now)
      ∧ (∀ (max_size : ℕ) (ttl : ℚ) (c : List CacheEntry) (resp : String) (ts now : ℚ),
          1 ≤ max_size → now - ts ≤ ttl →
          (cacheGet ttl (cacheSet max_size c m1 resp r ts) m2 r now).1 = some resp) := by
  intro m1 m2 r hnorm
  have hkey : generateKey m1 r = generateKey m2 r := by
    unfold generateKey
    rw [hnorm]
  refine ⟨hkey, ?_, ?_⟩
  · intro ttl c now
    unfold cacheGet
    rw [hkey]
  · intro max_size ttl c resp ts now hpos hfresh
    have hins : ∀ c0 : List CacheEntry,
        (cacheGet ttl (insertEntry (generateKey m1 r) resp ts c0) m2 r now).1 = some resp := by
      intro c0
      unfold cacheGet
      rw [← hkey, findEntry_insertEntry_self]
      simp only
      rw [if_neg (not_lt.mpr hfresh)]
    unfold cacheSet
    by_cases hfull : max_size ≤ c.length
    · rw [if_pos hfull]
      cases hold : oldestEntry c with
      | none =>
        exfalso
        have : c = [] := oldestEntry_eq_none hold
        subst this
        simp at hfull
        omega
      | some e => exact hins _
    · rw [if_neg hfull]
      exact hins _

/-- Witness for C10: `"  Hello "` and `"hello"` share one cache slot. -/
theorem cacheKey_normalizes_case_and_whitespace_witness :
    (stripChars (lowerChars "  Hello ".data) = stripChars (lowerChars "hello".data))
    ∧ generateKey "  Hello " true = generateKey "hello" true
    ∧ cacheGet 10 [⟨"other".data, "w", 0⟩] "  Hello " true 3 =
        cacheGet 10 [⟨"other".data, "w", 0⟩] "hello" true 3
    ∧ ((1 : ℕ) ≤ 5 ∧ (3 : ℚ) - 1 ≤ 10 ∧
      (cacheGet 10 (cacheSet 5 [] "  Hello " "resp" true 1) "hello" true 3).1 = some "resp") := by
  have h := cacheKey_normalizes_case_and_whitespace "  Hello " "hello" true (by decide)
  exact ⟨by decide, h.1, h.2.1 10 [⟨"other".data, "w", 0⟩] 3,
    by decide, by norm_num, h.2.2 5 10 [] "resp" 1 3 (by decide) (by norm_num)⟩

lemma processResults_mem {threshold : ℚ} (h1 : threshold ≤ 1) :
    ∀ {raw : List RawSearchResult} {rs : List SearchResult},
      processResults threshold raw = .ok rs →
      ∀ r ∈ rs, threshold ≤ r.similarity_score ∧ r.similarity_score ≤ 1 := by
  intro raw
  induction raw with
  | nil =>
    intro rs h r hr
    simp [processResults] at h
    subst h
    simp at hr
  | cons a rest ih =>
    intro rs h r hr
    simp only [processResults] at h
    cases hpr : processResult threshold a with
    | error msg => rw [hpr] at h; simp [stepResults] at h
    | ok o =>
      rw [hpr] at h
      cases hrest : processResults threshold rest with
      | error msg =>
        rw [hrest] at h
        cases o <;> simp [stepResults] at h
      | ok rs0 =>
        rw [hrest] at h
        cases o with
        | none =>
          simp only [stepResults, Except.ok.injEq] at h
          subst h
          exact ih hrest r hr
        | some s =>
          simp only [stepResults, Except.ok.injEq] at h
          subst h
          unfold processResult at hpr
          by_cases hth : rawScore a < threshold
          · rw [if_pos hth] at hpr; simp at hpr
          · rw [if_neg hth] at hpr
            cases hdt : docTypeOfString a.document_type with
            | none => rw [hdt] at hpr; simp at hpr
            | some dt =>
              rw [hdt] at hpr
              simp only [Except.ok.injEq, Option.some.injEq] at hpr
              rcases List.mem_cons.mp hr with rfl | hmem
              · rw [← hpr]
                constructor
                · exact le_min (not_lt.mp hth) h1
                · exact min_le_right _ _
              · exact ih hrest r hmem

lemma processResults_length {threshold : ℚ} :
    ∀ {raw : List RawSearchResult} {rs : List SearchResult},
      processResults threshold raw = .ok rs → rs.length ≤ raw.length := by
  intro raw
  induction raw with
  | nil =>
    intro rs h
    simp [processResults] at h
    subst h
    simp
  | cons a rest ih =>
    intro rs h
    simp only [processResults] at h
    cases hpr : processResult threshold a with
    | error msg => rw [hpr] at h; simp [stepResults] at h
    | ok o =>
      rw [hpr] at h
      cases hrest : processResults threshold rest with
      | error msg =>
        rw [hrest] at h
        cases o <;> simp [stepResults] at h
      | ok rs0 =>
        rw [hrest] at h
        cases o with
        | none =>
          simp only [stepResults, Except.ok.injEq] at h
          subst h
          exact le_trans (ih hrest) (Nat.le_succ _)
        | some s =>
          simp only [stepResults, Except.ok.injEq] at h
          subst h
          simpa using Nat.succ_le_succ (ih hrest)

/-- Claim C2: every result returned by `semantic_search` has
`similarity_score` between the query's threshold and `1.0`; a raw result
whose capped score `min(max(reranker/4, score), 1)` falls below the
threshold is dropped by the loop.  The threshold bound `≤ 1` is the pydantic
validation `le=1.0` on `SearchQuery.similarity_threshold`. -/
theorem semanticSearch_threshold_and_cap :
    ∀ (q : SearchQuery) (embed : Except String (List ℚ))
      (search : List ℚ → Except String (List RawSearchResult)),
      q.similarity_threshold ≤ 1 →
      (∀ r ∈ semanticSearch q embed search,
        q.similarity_threshold ≤ r.similarity_score ∧ r.similarity_score ≤ 1)
      ∧ (∀ rr : RawSearchResult, min (rawScore rr) 1 < q.similarity_threshold →
          processResult q.similarity_threshold rr = .ok none) := by
  intro q embed search h1
  constructor
  · intro r hr
    unfold semanticSearch at hr
    cases embed with
    | error msg => simp at hr
    | ok v =>
      dsimp only at hr
      cases hsv : search v with
      | error msg => rw [hsv] at hr; simp at hr
      | ok raw =>
        rw [hsv] at hr
        dsimp only at hr
        cases hrun : processResults q.similarity_threshold raw with
        | error msg => rw [hrun] at hr; simp at hr
        | ok rs =>
          rw [hrun] at hr
          simp only [List.mem_mergeSort] at hr
          exact processResults_mem h1 hrun r hr
  · intro rr hlow
    have hsc : rawScore rr < q.similarity_threshold := by
      by_cases hle : rawScore rr ≤ 1
      · rwa [min_eq_left hle] at hlow
      · exfalso
        rw [min_eq_right (le_of_not_le hle)] at hlow
        exact absurd (lt_of_lt_of_le hlow h1) (lt_irrefl _)
    unfold processResult
    rw [if_pos hsc]

/-- Witness for C2 with a concrete query (threshold `0.7`), an embedding, and
one raw result that passes the threshold. -/
theorem semanticSearch_threshold_and_cap_witness :
    (sampleQuery.similarity_threshold ≤ 1)
    ∧ ((∀ r ∈ semanticSearch sampleQuery (.ok [1]) (fun _ => .ok [sampleRaw]),
        sampleQuery.similarity_threshold ≤ r.similarity_score ∧ r.similarity_score ≤ 1)
      ∧ (∀ rr : RawSearchResult, min (rawScore rr) 1 < sampleQuery.similarity_threshold →
          processResult sampleQuery.similarity_threshold rr = .ok none)) :=
  ⟨by norm_num [sampleQuery],
    semanticSearch_threshold_and_cap sampleQuery (.ok [1]) (fun _ => .ok [sampleRaw])
      (by norm_num [sampleQuery])⟩

/-- Claim C8: `semantic_search` propagates no exception: an error in
embedding generation, in the search call, or in result processing makes the
function return the empty list. -/
theorem semanticSearch_error_yields_empty :
    (∀ (q : SearchQuery) (msg : String)
        (search : List ℚ → Except String (List RawSearchResult)),
      semanticSearch q (.error msg) search = [])
    ∧ (∀ (q : SearchQuery) (v : List ℚ) (msg : String),
      semanticSearch q (.ok v) (fun _ => .error msg) = [])
    ∧ (∀ (q : SearchQuery) (v : List ℚ) (raw : List RawSearchResult) (msg : String),
      processResults q.similarity_threshold raw = .error msg →
      semanticSearch q (.ok v) (fun _ => .ok raw) = []) := by
  refine ⟨?_, ?_, ?_⟩
  · intro q msg search
    rfl
  · intro q v msg
    rfl
  · intro q v raw msg h
    simp [semanticSearch, h]

/-- Witness for C8: a processing error (unknown document type above the
threshold) on a concrete query yields the empty list. -/
theorem semanticSearch_error_yields_empty_witness :
    (processResults zeroQuery.similarity_threshold [bogusRaw] =
      .error "ValueError: invalid DocumentType")
    ∧ semanticSearch zeroQuery (.ok [1]) (fun _ => .ok [bogusRaw]) = [] := by
  have hscore : ¬ rawScore bogusRaw < zeroQuery.similarity_threshold := by
    unfold rawScore bogusRaw zeroQuery
    norm_num
  have hdt : docTypeOfString bogusRaw.document_type = none := by decide
  have hproc : processResults zeroQuery.similarity_threshold [bogusRaw] =
      .error "ValueError: invalid DocumentType" := by
    simp [processResults, processResult, hscore, hdt, stepResults]
  exact ⟨hproc,
    semanticSearch_error_yields_empty.2.2 zeroQuery [1] [bogusRaw]
      "ValueError: invalid DocumentType" hproc⟩

/-- Claim C9: the list returned by `semantic_search` is sorted in
non-increasing order of `similarity_score`: each element is `≥` its
successor. -/
theorem semanticSearch_sorted_descending :
    ∀ (q : SearchQuery) (embed : Except String (List ℚ))
      (search : List ℚ → Except String (List RawSearchResult)),
      (semanticSearch q embed search).Chain'
        (fun a b => b.similarity_score ≤ a.similarity_score) := by
  intro q embed search
  unfold semanticSearch
  cases embed with
  | error msg => simp
  | ok v =>
    dsimp only
    cases search v with
    | error msg => simp
    | ok raw =>
      dsimp only
      cases processResults q.similarity_threshold raw with
      | error msg => simp
      | ok rs =>
        dsimp only
        apply List.Pairwise.chain'
        have hp := @List.sorted_mergeSort _ simDescend
          (fun a b c hab hbc => by
            simp only [simDescend, decide_eq_true_eq] at hab hbc ⊢
            exact le_trans hbc hab)
          (fun a b => by
            simp only [simDescend]
            rcases le_total b.similarity_score a.similarity_score with h | h
            · simp [h]
            · simp [h])
          rs
        exact hp.imp (fun {a b} hab => by
          simpa [simDescend] using hab)

lemma containsChars_iff (pat : List Char) :
    ∀ s : List Char, containsChars pat s = true ↔ pat <:+: s := by
  intro s
  induction s with
  | nil =>
    simp only [containsChars]
    constructor
    · intro h
      rw [List.isEmpty_iff] at h
      simp [h]
    · intro h
      rw [List.isEmpty_iff]
      simpa using h.sublist.length_le
  | cons c rest ih =>
    simp only [containsChars, Bool.or_eq_true, List.isPrefixOf_iff_prefix, ih]
    rw [List.infix_cons_iff]

/-- Claim C3: `generate_rag_response` calls the search service exactly when
`_should_use_rag` holds, i.e. exactly when some career keyword occurs as a
substring of the lower-cased message; a message containing no keyword yields
`knowledge_enhanced = False` and no retrieved sources. -/
theorem ragRetrieval_iff_career_keyword :
    ∀ (st : List (String × List ChatMessage)) (req : ChatRequest)
      (oracle : SearchQuery → List SearchResult) (llm : List LLMMessage → String),
      ((generateRagResponse st req oracle llm).searchCalled = true ↔
        ∃ kw ∈ careerKeywords, kw.data <:+: lowerChars req.message.data)
      ∧ ((∀ kw ∈ careerKeywords, ¬ kw.data <:+: lowerChars req.message.data) →
          (generateRagResponse st req oracle llm).response.knowledge_enhanced = false
          ∧ (generateRagResponse st req oracle llm).response.retrieved_sources = []) := by
  intro st req oracle llm
  have hsc : (generateRagResponse st req oracle llm).searchCalled =
      shouldUseRag req.message := rfl
  constructor
  · rw [hsc]
    simp only [shouldUseRag, List.any_eq_true, containsChars_iff]
  · intro hno
    have hfalse : shouldUseRag req.message = false := by
      by_contra h
      rw [Bool.not_eq_false] at h
      simp only [shouldUseRag, List.any_eq_true, containsChars_iff] at h
      obtain ⟨kw, hkw, hin⟩ := h
      exact hno kw hkw hin
    have hsrc : (generateRagResponse st req oracle llm).response.retrieved_sources = [] := by
      simp [generateRagResponse, hfalse]
    have hke : (generateRagResponse st req oracle llm).response.knowledge_enhanced =
        !((generateRagResponse st req oracle llm).response.retrieved_sources).isEmpty := rfl
    refine ⟨?_, hsrc⟩
    rw [hke, hsrc]
    rfl

/-- Witness for C3: `"hello there"` contains no career keyword, so no
retrieval happens. -/
theorem ragRetrieval_iff_career_keyword_witness :
    (∀ kw ∈ careerKeywords, ¬ kw.data <:+: lowerChars "hello there".data)
    ∧ ((generateRagResponse [] ⟨"hello there", none⟩ (fun _ => [])
          (fun _ => "ok")).response.knowledge_enhanced = false
      ∧ (generateRagResponse [] ⟨"hello there", none⟩ (fun _ => [])
          (fun _ => "ok")).response.retrieved_sources = []) :=
  ⟨by decide,
    (ragRetrieval_iff_career_keyword [] ⟨"hello there", none⟩ (fun _ => [])
      (fun _ => "ok")).2 (by decide)⟩

lemma sum_bounds_of_forall :
    ∀ l : List ℚ, (∀ x ∈ l, 0 ≤ x ∧ x ≤ 1) → 0 ≤ l.sum ∧ l.sum ≤ (l.length : ℚ) := by
  intro l
  induction l with
  | nil => intro h; simp
  | cons a rest ih =>
    intro h
    obtain ⟨ha0, ha1⟩ := h a (by simp)
    have hrest := ih (fun x hx => h x (by simp [hx]))
    simp only [List.sum_cons, List.length_cons]
    push_cast
    constructor
    · linarith [hrest.1]
    · linarith [hrest.2]

lemma avgSimilarity_bounds {sources : List SearchResult} (hne : sources ≠ [])
    (hb : ∀ s ∈ sources, 0 ≤ s.similarity_score ∧ s.similarity_score ≤ 1) :
    0 ≤ avgSimilarity sources ∧ avgSimilarity sources ≤ 1 := by
  have hlen : (0 : ℚ) < (sources.length : ℚ) := by
    exact_mod_cast List.length_pos.mpr hne
  have hs := sum_bounds_of_forall (sources.map (fun s => s.similarity_score)) ?_
  · unfold avgSimilarity
    constructor
    · exact div_nonneg hs.1 (le_of_lt hlen)
    · rw [div_le_one hlen]
      simpa using hs.2
  · intro x hx
    obtain ⟨s, hsmem, rfl⟩ := List.mem_map.mp hx
    exact hb s hsmem

lemma generateRagResponse_confidence (st : List (String × List ChatMessage))
    (req : ChatRequest) (oracle : SearchQuery → List SearchResult)
    (llm : List LLMMessage → String) :
    (generateRagResponse st req oracle llm).response.confidence_score =
      (if ((generateRagResponse st req oracle llm).response.retrieved_sources).isEmpty
       then none
       else some (min 0.95 (0.7 +
         avgSimilarity (generateRagResponse st req oracle llm).response.retrieved_sources
           * 0.25))) := rfl

/-- Claim C1: with retrieved sources the confidence score equals
`min(0.95, 0.7 + avg_similarity * 0.25)`; with none it is `None`; and for
similarity scores within `[0, 1]` the confidence lies in `[0.7, 0.95]`. -/
theorem ragConfidence_formula :
    ∀ (st : List (String × List ChatMessage)) (req : ChatRequest)
      (oracle : SearchQuery → List SearchResult) (llm : List LLMMessage → String),
      ((generateRagResponse st req oracle llm).response.retrieved_sources ≠ [] →
        (generateRagResponse st req oracle llm).response.confidence_score =
          some (min 0.95 (0.7 +
            avgSimilarity (generateRagResponse st req oracle llm).response.retrieved_sources
              * 0.25)))
      ∧ ((generateRagResponse st req oracle llm).response.retrieved_sources = [] →
        (generateRagResponse st req oracle llm).response.confidence_score = none)
      ∧ ((generateRagResponse st req oracle llm).response.retrieved_sources ≠ [] →
        (∀ s ∈ (generateRagResponse st req oracle llm).response.retrieved_sources,
          0 ≤ s.similarity_score ∧ s.similarity_score ≤ 1) →
        ∃ c, (generateRagResponse st req oracle llm).response.confidence_score = some c ∧
          (0.7 : ℚ) ≤ c ∧ c ≤ (0.95 : ℚ)) := by
  intro st req oracle llm
  have hc := generateRagResponse_confidence st req oracle llm
  refine ⟨?_, ?_, ?_⟩
  · intro hne
    rw [hc, if_neg (by simpa [List.isEmpty_iff] using hne)]
  · intro he
    rw [hc, if_pos (by simp [List.isEmpty_iff, he])]
  · intro hne hb
    obtain ⟨hA0, hA1⟩ := avgSimilarity_bounds hne hb
    refine ⟨_, by rw [hc, if_neg (by simpa [List.isEmpty_iff] using hne)], ?_, ?_⟩
    · apply le_min
      · norm_num
      · have := mul_nonneg hA0 (by norm_num : (0 : ℚ) ≤ 0.25)
        linarith
    · exact min_le_left _ _

/-- Witness for C1: one retrieved source with similarity `0.8`. -/
theorem ragConfidence_formula_witness :
    ((generateRagResponse [] ⟨"career", none⟩ (fun _ => [sampleSource])
        (fun _ => "ok")).response.retrieved_sources ≠ [])
    ∧ (generateRagResponse [] ⟨"career", none⟩ (fun _ => [sampleSource])
        (fun _ => "ok")).response.confidence_score =
        some (min 0.95 (0.7 +
          avgSimilarity (generateRagResponse [] ⟨"career", none⟩ (fun _ => [sampleSource])
            (fun _ => "ok")).response.retrieved_sources * 0.25)) :=
  ⟨by decide,
    (ragConfidence_formula [] ⟨"career", none⟩ (fun _ => [sampleSource])
      (fun _ => "ok")).1 (by decide)⟩

lemma length_pythonTail_le {n : ℕ} (hn : n ≠ 0) (l : List α) :
    (pythonTail n l).length ≤ n := by
  unfold pythonTail
  rw [if_neg hn, List.length_drop]
  omega

lemma pythonTail_suffix (n : ℕ) (l : List α) : pythonTail n l <:+ l := by
  unfold pythonTail
  split
  · exact List.suffix_refl l
  · exact List.drop_suffix _ _

lemma updateHistory_length_le {maxH : ℕ} (hpos : 1 ≤ maxH)
    (h : List ChatMessage) (u a : ChatMessage) :
    (updateHistory maxH h u a).length ≤ maxH := by
  unfold updateHistory
  by_cases hlt : maxH < (h ++ [u, a]).length
  · rw [if_pos hlt]
    exact length_pythonTail_le (by omega) _
  · rw [if_neg hlt]
    exact Nat.le_of_not_lt hlt

lemma updateHistory_suffix (maxH : ℕ) (h : List ChatMessage) (u a : ChatMessage) :
    updateHistory maxH h u a <:+ (h ++ [u, a]) := by
  unfold updateHistory
  split
  · exact pythonTail_suffix _ _
  · exact List.suffix_refl _

lemma lookupHistory_append_of_none {cid : String}
    {st : List (String × List ChatMessage)} (l : List (String × List ChatMessage))
    (h : lookupHistory st cid = none) :
    lookupHistory (st ++ l) cid = lookupHistory l cid := by
  induction st with
  | nil => simp
  | cons e rest ih =>
    obtain ⟨k, v⟩ := e
    simp only [lookupHistory] at h
    rw [List.cons_append]
    simp only [lookupHistory]
    by_cases hk : k = cid
    · rw [if_pos hk] at h; simp at h
    · rw [if_neg hk] at h ⊢
      exact ih h

lemma lookupHistory_map_update_self (cid : String) (hnew : List ChatMessage) :
    ∀ {st : List (String × List ChatMessage)}, (lookupHistory st cid).isSome →
      lookupHistory (st.map (fun e => if e.1 = cid then (cid, hnew) else e)) cid =
        some hnew := by
  intro st
  induction st with
  | nil => intro h; simp [lookupHistory] at h
  | cons e rest ih =>
    intro h
    obtain ⟨k, v⟩ := e
    by_cases hk : k = cid
    · simp only [List.map_cons, if_pos hk]
      simp only [lookupHistory]
      simp
    · simp only [List.map_cons, if_neg hk]
      simp only [lookupHistory]
      rw [if_neg hk]
      apply ih
      simp only [lookupHistory] at h
      rw [if_neg hk] at h
      exact h

lemma lookupHistory_setHistory_self (st : List (String × List ChatMessage))
    (cid : String) (hnew : List ChatMessage) :
    lookupHistory (setHistory st cid hnew) cid = some hnew := by
  unfold setHistory
  by_cases h : (lookupHistory st cid).isSome
  · rw [if_pos h]
    exact lookupHistory_map_update_self cid hnew h
  · rw [if_neg h]
    rw [lookupHistory_append_of_none _ (Option.not_isSome_iff_eq_none.mp h)]
    simp only [lookupHistory]
    simp

lemma lookupHistory_map_update_ne {cid cid' : String} (hnew : List ChatMessage)
    (hne : cid' ≠ cid) :
    ∀ st : List (String × List ChatMessage),
      lookupHistory (st.map (fun e => if e.1 = cid then (cid, hnew) else e)) cid' =
        lookupHistory st cid' := by
  intro st
  induction st with
  | nil => rfl
  | cons e rest ih =>
    obtain ⟨k, v⟩ := e
    by_cases hk : k = cid
    · simp only [List.map_cons, if_pos hk]
      simp only [lookupHistory]
      rw [if_neg (fun hcc => hne hcc.symm), if_neg (fun hkc => hne (hk ▸ hkc).symm)]
      exact ih
    · simp only [List.map_cons, if_neg hk]
      simp only [lookupHistory]
      by_cases hk' : k = cid'
      · rw [if_pos hk', if_pos hk']
      · rw [if_neg hk', if_neg hk']
        exact ih

lemma lookupHistory_setHistory_ne (st : List (String × List ChatMessage))
    {cid cid' : String} (hnew : List ChatMessage) (hne : cid' ≠ cid) :
    lookupHistory (setHistory st cid hnew) cid' = lookupHistory st cid' := by
  unfold setHistory
  split
  · exact lookupHistory_map_update_ne hnew hne st
  · rename_i h
    cases hl : lookupHistory st cid' with
    | none =>
      rw [lookupHistory_append_of_none _ hl]
      simp only [lookupHistory]
      rw [if_neg (fun hcc => hne hcc.symm)]
    | some v =>
      clear h
      induction st with
      | nil => simp [lookupHistory] at hl
      | cons e rest ih =>
        obtain ⟨k, w⟩ := e
        simp only [lookupHistory] at hl
        rw [List.cons_append]
        simp only [lookupHistory]
        by_cases hk : k = cid'
        · rw [if_pos hk] at hl ⊢
          exact hl
        · rw [if_neg hk] at hl ⊢
          exact ih hl

/-- Claim C4: appending a user/assistant pair and trimming keeps every
conversation history at or below the configured maximum (20 for the RAG
service, `settings.max_conversation_history` for the AI service, both
positive), and what is kept is a trailing slice of the appended history;
both `generate_rag_response` and `_update_conversation_context` preserve
this bound on the whole store. -/
theorem conversationHistory_bounded_and_suffix :
    (∀ (maxH : ℕ) (h : List ChatMessage) (u a : ChatMessage), 1 ≤ maxH →
      (updateHistory maxH h u a).length ≤ maxH ∧
      updateHistory maxH h u a <:+ (h ++ [u, a]))
    ∧ (∀ (st : List (String × List ChatMessage)) (req : ChatRequest)
        (oracle : SearchQuery → List SearchResult) (llm : List LLMMessage → String),
      (∀ cid h0, lookupHistory st cid = some h0 → h0.length ≤ maxHistoryMessages) →
      (∀ cid h', lookupHistory (generateRagResponse st req oracle llm).state cid =
          some h' → h'.length ≤ maxHistoryMessages)
      ∧ (∀ cid, req.conversation_id = some cid →
          lookupHistory (generateRagResponse st req oracle llm).state cid =
            some (updateHistory maxHistoryMessages ((lookupHistory st cid).getD [])
              { content := req.message, role := "user" }
              { content := (generateRagResponse st req oracle llm).response.message,
                role := "assistant" })))
    ∧ (∀ (max_history : ℕ) (contexts : List (String × List ChatMessage))
        (conversation_id user_message ai_response : String), 1 ≤ max_history →
      (∀ c h0, lookupHistory contexts c = some h0 → h0.length ≤ max_history) →
      ∀ c h', lookupHistory
          (updateConversationContext max_history contexts conversation_id
            user_message ai_response) c = some h' →
        h'.length ≤ max_history) := by
  refine ⟨?_, ?_, ?_⟩
  · intro maxH h u a hpos
    exact ⟨updateHistory_length_le hpos h u a, updateHistory_suffix maxH h u a⟩
  · intro st req oracle llm hinv
    have hstate : (generateRagResponse st req oracle llm).state =
        (match req.conversation_id with
         | none => st
         | some cid =>
           setHistory st cid
             (updateHistory maxHistoryMessages ((lookupHistory st cid).getD [])
               { content := req.message, role := "user" }
               { content := (generateRagResponse st req oracle llm).response.message,
                 role := "assistant" })) := rfl
    constructor
    · intro cid h' hl
      rw [hstate] at hl
      cases hcid : req.conversation_id with
      | none =>
        rw [hcid] at hl
        exact hinv cid h' hl
      | some cid0 =>
        rw [hcid] at hl
        dsimp only at hl
        by_cases hc : cid = cid0
        · subst hc
          rw [lookupHistory_setHistory_self] at hl
          have := Option.some.inj hl
          rw [← this]
          exact updateHistory_length_le (by norm_num [maxHistoryMessages]) _ _ _
        · rw [lookupHistory_setHistory_ne _ _ hc] at hl
          exact hinv cid h' hl
    · intro cid hcid
      rw [hstate, hcid]
      dsimp only
      exact lookupHistory_setHistory_self _ _ _
  · intro max_history contexts conversation_id user_message ai_response hpos hinv c h' hl
    unfold updateConversationContext at hl
    by_cases hc : c = conversation_id
    · subst hc
      rw [lookupHistory_setHistory_self] at hl
      have := Option.some.inj hl
      rw [← this]
      exact updateHistory_length_le hpos _ _ _
    · rw [lookupHistory_setHistory_ne _ _ hc] at hl
      exact hinv c h' hl

/-- Witness for C4 on the empty store, a two-message update at capacity 20,
and a concrete `_update_conversation_context` call. -/
theorem conversationHistory_bounded_and_suffix_witness :
    ((1 : ℕ) ≤ 20 ∧
      (updateHistory 20 [] ⟨"hi", "user"⟩ ⟨"ok", "assistant"⟩).length ≤ 20 ∧
      updateHistory 20 [] ⟨"hi", "user"⟩ ⟨"ok", "assistant"⟩ <:+
        ([] ++ [⟨"hi", "user"⟩, ⟨"ok", "assistant"⟩]))
    ∧ ((∀ cid h', lookupHistory
          (generateRagResponse [] ⟨"hi", some "c1"⟩ (fun _ => []) (fun _ => "ok")).state
          cid = some h' → h'.length ≤ maxHistoryMessages)
      ∧ (∀ cid, (some "c1" : Option String) = some cid →
          lookupHistory
            (generateRagResponse [] ⟨"hi", some "c1"⟩ (fun _ => []) (fun _ => "ok")).state
            cid =
            some (updateHistory maxHistoryMessages ((lookupHistory [] cid).getD [])
              { content := "hi", role := "user" }
              { content := (generateRagResponse [] ⟨"hi", some "c1"⟩ (fun _ => [])
                  (fun _ => "ok")).response.message, role := "assistant" })))
    ∧ ((1 : ℕ) ≤ 20 ∧
      ∀ c h', lookupHistory (updateConversationContext 20 [] "c1" "hi" "ok") c =
          some h' → h'.length ≤ 20) :=
  ⟨⟨by decide,
      (conversationHistory_bounded_and_suffix.1 20 [] ⟨"hi", "user"⟩ ⟨"ok", "assistant"⟩
        (by decide)).1,
      (conversationHistory_bounded_and_suffix.1 20 [] ⟨"hi", "user"⟩ ⟨"ok", "assistant"⟩
        (by decide)).2⟩,
    conversationHistory_bounded_and_suffix.2.1 [] ⟨"hi", some "c1"⟩ (fun _ => [])
      (fun _ => "ok")
      (by intro cid h0 h; exact absurd h (by simp [lookupHistory])),
    by decide,
    conversationHistory_bounded_and_suffix.2.2 20 [] "c1" "hi" "ok" (by decide)
      (by intro c h0 h; exact absurd h (by simp [lookupHistory]))⟩

lemma issuedQuery_fields {st : List (String × List ChatMessage)} {req : ChatRequest}
    {oracle : SearchQuery → List SearchResult} {llm : List LLMMessage → String}
    {q : SearchQuery} :
    (generateRagResponse st req oracle llm).issuedQuery = some q →
    q.max_results = maxRetrievedDocs ∧ q.similarity_threshold = minRetrievalScore := by
  intro hq
  have hq' : (if shouldUseRag req.message then
      some { query := req.message
             conversation_context := String.intercalate " "
               ((pythonTail 4 (match req.conversation_id with
                 | none => []
                 | some cid => (lookupHistory st cid).getD [])).map (fun m => m.content))
             max_results := maxRetrievedDocs
             similarity_threshold := minRetrievalScore }
    else (none : Option SearchQuery)) = some q := hq
  cases hr : shouldUseRag req.message with
  | false => rw [hr] at hq'; simp at hq'
  | true =>
    rw [hr] at hq'
    simp only [if_true] at hq'
    have := Option.some.inj hq'
    rw [← this]
    exact ⟨rfl, rfl⟩

/-- Claim C5: a retrieval request asks for at most 5 documents with the
configured threshold, `semantic_search` returns at most `max_results`
results when the index honours `top`, the augmented prompt holds one
numbered source block per retrieved source, the quoted conversation context
is the trailing at-most-6 messages, and hence at most 5 snippets are ever
retrieved. -/
theorem ragRetrieval_and_prompt_limits :
    (∀ (st : List (String × List ChatMessage)) (req : ChatRequest)
        (oracle : SearchQuery → List SearchResult) (llm : List LLMMessage → String)
        (q : SearchQuery),
      (generateRagResponse st req oracle llm).issuedQuery = some q →
      q.max_results = 5 ∧ q.similarity_threshold = 0.7)
    ∧ (∀ (q : SearchQuery) (embed : Except String (List ℚ))
        (search : List ℚ → Except String (List RawSearchResult)),
      (∀ v raw, search v = .ok raw → raw.length ≤ q.max_results) →
      (semanticSearch q embed search).length ≤ q.max_results)
    ∧ (∀ sources : List SearchResult,
        (ragPromptSourceBlocks sources).length = sources.length)
    ∧ (∀ history : List ChatMessage,
        (contextMessagesFor history).length ≤ 6 ∧ contextMessagesFor history <:+ history)
    ∧ (∀ (st : List (String × List ChatMessage)) (req : ChatRequest)
        (oracle : SearchQuery → List SearchResult) (llm : List LLMMessage → String),
      (∀ q2 : SearchQuery, (oracle q2).length ≤ q2.max_results) →
      (generateRagResponse st req oracle llm).response.retrieved_sources.length ≤ 5) := by
  refine ⟨?_, ?_, ?_, ?_, ?_⟩
  · intro st req oracle llm q hq
    exact issuedQuery_fields hq
  · intro q embed search hsearch
    unfold semanticSearch
    cases embed with
    | error msg => simp
    | ok v =>
      dsimp only
      cases hsv : search v with
      | error msg => simp
      | ok raw =>
        dsimp only
        cases hrun : processResults q.similarity_threshold raw with
        | error msg => simp
        | ok rs =>
          dsimp only
          rw [List.length_mergeSort]
          exact le_trans (processResults_length hrun) (hsearch v raw hsv)
  · intro sources
    unfold ragPromptSourceBlocks
    rw [List.length_map, List.enumFrom_length]
  · intro history
    unfold contextMessagesFor
    exact ⟨length_pythonTail_le (by decide) _, pythonTail_suffix _ _⟩
  · intro st req oracle llm hor
    have hsrc : (generateRagResponse st req oracle llm).response.retrieved_sources =
        (match (generateRagResponse st req oracle llm).issuedQuery with
         | none => []
         | some q => oracle q) := rfl
    cases hq : (generateRagResponse st req oracle llm).issuedQuery with
    | none => rw [hsrc, hq]; simp
    | some q0 =>
      rw [hsrc, hq]
      dsimp only
      calc (oracle q0).length ≤ q0.max_results := hor q0
        _ = 5 := (issuedQuery_fields hq).1

/-- Witness for C5: the message `"career"` issues a query with
`max_results = 5` and threshold `0.7`; a one-result index response keeps the
output within `max_results`; an empty oracle keeps the sources within 5. -/
theorem ragRetrieval_and_prompt_limits_witness :
    ((generateRagResponse [] ⟨"career", none⟩ (fun _ => []) (fun _ => "ok")).issuedQuery =
        some careerIssuedQuery
      ∧ careerIssuedQuery.max_results = 5
      ∧ careerIssuedQuery.similarity_threshold = 0.7)
    ∧ ((∀ (v : List ℚ) (raw : List RawSearchResult),
          (Except.ok [sampleRaw] : Except String (List RawSearchResult)) =
            Except.ok raw → raw.length ≤ sampleQuery.max_results)
      ∧ (semanticSearch sampleQuery (.ok [1]) (fun _ => .ok [sampleRaw])).length ≤
          sampleQuery.max_results)
    ∧ ((∀ q2 : SearchQuery, ([] : List SearchResult).length ≤ q2.max_results)
      ∧ (generateRagResponse [] ⟨"career", none⟩ (fun _ => [])
          (fun _ => "ok")).response.retrieved_sources.length ≤ 5) :=
  ⟨⟨rfl,
    (ragRetrieval_and_prompt_limits.1 [] ⟨"career", none⟩ (fun _ => []) (fun _ => "ok")
      careerIssuedQuery rfl).1,
    (ragRetrieval_and_prompt_limits.1 [] ⟨"career", none⟩ (fun _ => []) (fun _ => "ok")
      careerIssuedQuery rfl).2⟩,
   ⟨by intro v raw h; cases h; decide,
    ragRetrieval_and_prompt_limits.2.1 sampleQuery (.ok [1]) (fun _ => .ok [sampleRaw])
      (by intro v raw h; cases h; decide)⟩,
   ⟨by intro q2; simp,
    ragRetrieval_and_prompt_limits.2.2.2.2 [] ⟨"career", none⟩ (fun _ => [])
      (fun _ => "ok") (by intro q2; simp)⟩⟩

end Chatbot

